import Mathlib

/-!
Shallow embedding of the numeric one-step integrators of
`npbrain/integration/integrator.py` (the `get_np_step` closures, the
`ExponentialEuler.__init__` precondition check, and the `get_integrator`
registry).

Modelling conventions:
* States, times and extra arguments are rationals (`ℚ`); the numpy code is
  elementwise over arrays, and every claim under study is about the scalar
  arithmetic of one element, so the scalar model is faithful to the formulas.
* The module-level constants captured by each closure (`__dt = profile.get_dt()`
  and `__dt_sqrt = np.sqrt(__dt)`) are passed explicitly as the parameters
  `dt` and `dtSqrt`; theorems that need the relationship between them assume
  `dtSqrt * dtSqrt = dt`.
* The fresh standard-normal draw `np.random.normal(0.0, 1.0, y0.shape)` made
  once per call is modelled by the explicit `noise` argument of a step.
* `np.exp` is modelled by an abstract parameter `expf : ℚ → ℚ`.
* A drift function `__f` is either scalar-valued (`DriftFn.single`, the
  non-multi-return convention `__f(y0, t, *args) * dt`) or tuple-valued
  (`DriftFn.multi`, the convention `val[0]`, `val[1:]`); a Python tuple
  `val` is modelled as `val.1 = val[0]` together with `val.2 = val[1:]`.
* Python exceptions are modelled with `Except`: construction-time raises make
  `get_np_step` return `Except.error`, and call-time failures (unpacking a
  scalar as a pair, indexing a too-short tuple) make the step itself return
  `Except.error`.
-/

namespace NpBrain

/-- Python exception values raised by the integrator module, by class. -/
inductive PyErr where
  | notImplemented
  | integratorError (msg : String)
  | valueError (msg : String)
  | typeError (msg : String)
  | indexError (msg : String)
deriving DecidableEq

/-- Result of one call of a step closure: Python returns either the bare new
state (non-multi-return equations) or a tuple of the new state followed by the
auxiliary outputs. -/
inductive PyRes where
  | scalar (y : ℚ)
  | tuple (y : ℚ) (aux : List ℚ)
deriving DecidableEq

/-- The drift function `__f = diff_eq.f`, in the two calling conventions the
source uses depending on `is_multi_return`. -/
inductive DriftFn where
  | single (f : ℚ → ℚ → List ℚ → ℚ)
  | multi (f : ℚ → ℚ → List ℚ → ℚ × List ℚ)

/-- The diffusion coefficient `diff_eq.g` of a stochastic equation: either a
callable (functional noise) or a numeric constant. -/
inductive GVal where
  | fn (g : ℚ → ℚ → List ℚ → ℚ)
  | const (c : ℚ)

/-- The part of `DiffEquation` read by the `get_np_step` builders: the drift
`f`, and `g` present exactly when the equation is stochastic. -/
structure DiffEquation where
  f : DriftFn
  g : Option GVal

/-- Attribute `diff_eq.is_stochastic`: a diffusion term exists. -/
def DiffEquation.is_stochastic (eq : DiffEquation) : Bool :=
  eq.g.isSome

/-- Attribute `diff_eq.is_multi_return`: the drift yields auxiliary outputs. -/
def DiffEquation.is_multi_return (eq : DiffEquation) : Bool :=
  match eq.f with
  | .single _ => false
  | .multi _ => true

/-- A built numeric step closure: arguments `(y0, t, *args)` plus the noise
value drawn during the call; the call can itself raise. -/
abbrev Step := ℚ → ℚ → List ℚ → ℚ → Except PyErr PyRes

/-- Invoke the result of a step-builder on concrete inputs: a construction
error propagates, otherwise the built closure runs. -/
def applyStep (c : Except PyErr Step) (y0 t : ℚ) (args : List ℚ)
    (noise : ℚ) : Except PyErr PyRes :=
  match c with
  | .error e => .error e
  | .ok s => s y0 t args noise

/-- Embedding of `Euler.get_np_step`: Euler / Euler–Maruyama update, six branches exactly
as in the source (stochastic with callable vs constant `g`, then
multi-return vs not; deterministic multi-return vs not). It never raises. -/
def Euler_np_step (dt dtSqrt : ℚ) (eq : DiffEquation) : Step :=
  match eq.g, eq.f with
  | some (.fn g), .multi f => fun y0 t args noise =>
      let val := f y0 t args
      let df := val.1 * dt
      let dg := dtSqrt * g y0 t args * noise
      .ok (.tuple (y0 + df + dg) val.2)
  | some (.fn g), .single f => fun y0 t args noise =>
      let df := f y0 t args * dt
      let dg := dtSqrt * g y0 t args * noise
      .ok (.scalar (y0 + df + dg))
  | some (.const c), .multi f => fun y0 t args noise =>
      let val := f y0 t args
      let df := val.1 * dt
      let dg := dtSqrt * c * noise
      .ok (.tuple (y0 + df + dg) val.2)
  | some (.const c), .single f => fun y0 t args noise =>
      let df := f y0 t args * dt
      let dg := dtSqrt * c * noise
      .ok (.scalar (y0 + df + dg))
  | none, .multi f => fun y0 t args _ =>
      let val := f y0 t args
      .ok (.tuple (y0 + dt * val.1) val.2)
  | none, .single f => fun y0 t args _ =>
      .ok (.scalar (y0 + dt * f y0 t args))

/-- Embedding of `RK2.get_np_step`: raises `NotImplementedError` on stochastic equations,
otherwise the two-stage parametric Runge-Kutta update with weight `beta`. -/
def RK2_np_step (dt beta : ℚ) (eq : DiffEquation) : Except PyErr Step :=
  if eq.is_stochastic then .error .notImplemented
  else
    match eq.f with
    | .multi f => .ok fun y0 t args _ =>
        let val := f y0 t args
        let k1 := val.1
        let v := f (y0 + beta * dt * k1) (t + beta * dt) args
        let k2 := v.1
        .ok (.tuple (y0 + dt * ((1 - 1 / (2 * beta)) * k1 + 1 / (2 * beta) * k2)) val.2)
    | .single f => .ok fun y0 t args _ =>
        let k1 := f y0 t args
        let k2 := f (y0 + beta * dt * k1) (t + beta * dt) args
        .ok (.scalar (y0 + dt * ((1 - 1 / (2 * beta)) * k1 + 1 / (2 * beta) * k2)))

/-- Embedding of `Heun.get_np_step`: for functional noise the stochastic Heun update; for a
constant diffusion coefficient the very closure built by `Euler.get_np_step`;
for a deterministic equation `RK2.get_np_step` with `__beta = 1.0`. -/
def Heun_np_step (dt dtSqrt : ℚ) (eq : DiffEquation) : Except PyErr Step :=
  match eq.g with
  | some (.fn g) =>
      match eq.f with
      | .multi f => .ok fun y0 t args noise =>
          let val := f y0 t args
          let df := val.1 * dt
          let gn := g y0 t args
          let ybar := y0 + gn * noise * dtSqrt
          let gnbar := g ybar t args
          let dg := (1 / 2) * (gn + gnbar) * noise * dtSqrt
          .ok (.tuple (y0 + df + dg) val.2)
      | .single f => .ok fun y0 t args noise =>
          let df := f y0 t args * dt
          let gn := g y0 t args
          let ybar := y0 + gn * noise * dtSqrt
          let gnbar := g ybar t args
          let dg := (1 / 2) * (gn + gnbar) * noise * dtSqrt
          .ok (.scalar (y0 + df + dg))
  | some (.const _) => .ok (Euler_np_step dt dtSqrt eq)
  | none => RK2_np_step dt 1 eq

/-- Embedding of `MidPoint.get_np_step`: delegates to `RK2.get_np_step` with `__beta = 0.5`. -/
def MidPoint_np_step (dt : ℚ) (eq : DiffEquation) : Except PyErr Step :=
  RK2_np_step dt (1 / 2) eq

/-- Embedding of `RK3.get_np_step`: raises `NotImplementedError` on stochastic equations,
otherwise the classical three-stage update. -/
def RK3_np_step (dt : ℚ) (eq : DiffEquation) : Except PyErr Step :=
  if eq.is_stochastic then .error .notImplemented
  else
    match eq.f with
    | .multi f => .ok fun y0 t args _ =>
        let val := f y0 t args
        let k1 := val.1
        let k2 := (f (y0 + dt / 2 * k1) (t + dt / 2) args).1
        let k3 := (f (y0 - dt * k1 + 2 * dt * k2) (t + dt) args).1
        .ok (.tuple (y0 + dt / 6 * (k1 + 4 * k2 + k3)) val.2)
    | .single f => .ok fun y0 t args _ =>
        let k1 := f y0 t args
        let k2 := f (y0 + dt / 2 * k1) (t + dt / 2) args
        let k3 := f (y0 - dt * k1 + 2 * dt * k2) (t + dt) args
        .ok (.scalar (y0 + dt / 6 * (k1 + 4 * k2 + k3)))

/-- Embedding of `RK4.get_np_step`: raises `NotImplementedError` on stochastic equations,
otherwise the classical four-stage update. -/
def RK4_np_step (dt : ℚ) (eq : DiffEquation) : Except PyErr Step :=
  if eq.is_stochastic then .error .notImplemented
  else
    match eq.f with
    | .multi f => .ok fun y0 t args _ =>
        let val := f y0 t args
        let k1 := val.1
        let k2 := (f (y0 + dt / 2 * k1) (t + dt / 2) args).1
        let k3 := (f (y0 + dt / 2 * k2) (t + dt / 2) args).1
        let k4 := (f (y0 + dt * k3) (t + dt) args).1
        .ok (.tuple (y0 + dt / 6 * (k1 + 2 * k2 + 2 * k3 + k4)) val.2)
    | .single f => .ok fun y0 t args _ =>
        let k1 := f y0 t args
        let k2 := f (y0 + dt / 2 * k1) (t + dt / 2) args
        let k3 := f (y0 + dt / 2 * k2) (t + dt / 2) args
        let k4 := f (y0 + dt * k3) (t + dt) args
        .ok (.scalar (y0 + dt / 6 * (k1 + 2 * k2 + 2 * k3 + k4)))

/-- Embedding of `RK4Alternative.get_np_step`: raises `IntegratorError` on stochastic
equations, otherwise the four-stage 3/8-rule update. -/
def RK4Alternative_np_step (dt : ℚ) (eq : DiffEquation) : Except PyErr Step :=
  if eq.is_stochastic then
    .error (.integratorError
      "\"RK4_alternative\" method does not support stochastic differential equation.")
  else
    match eq.f with
    | .multi f => .ok fun y0 t args _ =>
        let val := f y0 t args
        let k1 := val.1
        let k2 := (f (y0 + dt / 3 * k1) (t + dt / 3) args).1
        let k3 := (f (y0 - dt / 3 * k1 + dt * k2) (t + 2 * dt / 3) args).1
        let k4 := (f (y0 + dt * k1 - dt * k2 + dt * k3) (t + dt) args).1
        .ok (.tuple (y0 + dt / 8 * (k1 + 3 * k2 + 3 * k3 + k4)) val.2)
    | .single f => .ok fun y0 t args _ =>
        let k1 := f y0 t args
        let k2 := f (y0 + dt / 3 * k1) (t + dt / 3) args
        let k3 := f (y0 - dt / 3 * k1 + dt * k2) (t + 2 * dt / 3) args
        let k4 := f (y0 + dt * k1 - dt * k2 + dt * k3) (t + dt) args
        .ok (.scalar (y0 + dt / 8 * (k1 + 3 * k2 + 3 * k3 + k4)))

/-- Embedding of `ExponentialEuler.get_np_step`. In every branch the drift call must
deliver at least `(dydt, linear_part)`: with a scalar-convention drift the
Python tuple-unpacking `dydt, linear_part = __f(y0, t, *args)` fails with a
`TypeError`, and with a multi-return drift `val[1]` fails with an
`IndexError` when no auxiliary output exists.  Note the returned tails:
`val[2:]` in the functional-noise and deterministic branches but `val[1:]`
(the linear coefficient kept) in the constant-noise branch.  Division is the
exact field division of `ℚ`; the float behaviour of a zero divisor is
modelled separately by `ExponentialEuler_ode_multi_float`. -/
def ExponentialEuler_np_step (expf : ℚ → ℚ) (dt dtSqrt : ℚ)
    (eq : DiffEquation) : Step :=
  match eq.g, eq.f with
  | some (.fn g), .multi f => fun y0 t args noise =>
      let val := f y0 t args
      match val.2 with
      | [] => .error (.indexError "tuple index out of range")
      | linear :: rest =>
          let dydt := val.1
          let dg := dtSqrt * g y0 t args * noise
          let e := expf (linear * dt)
          .ok (.tuple (y0 + (e - 1) / linear * dydt + e * dg) rest)
  | some (.fn _), .single _ => fun _ _ _ _ =>
      .error (.typeError "cannot unpack non-iterable float")
  | some (.const c), .multi f => fun y0 t args noise =>
      let val := f y0 t args
      match val.2 with
      | [] => .error (.indexError "tuple index out of range")
      | linear :: rest =>
          let dydt := val.1
          let dg := dtSqrt * c * noise
          let e := expf (linear * dt)
          .ok (.tuple (y0 + (e - 1) / linear * dydt + e * dg) (linear :: rest))
  | some (.const _), .single _ => fun _ _ _ _ =>
      .error (.typeError "cannot unpack non-iterable float")
  | none, .multi f => fun y0 t args _ =>
      let val := f y0 t args
      match val.2 with
      | [] => .error (.indexError "tuple index out of range")
      | linear :: rest =>
          .ok (.tuple (y0 + (expf (linear * dt) - 1) / linear * val.1) rest)
  | none, .single _ => fun _ _ _ _ =>
      .error (.typeError "cannot unpack non-iterable float")

/-- Embedding of `ExponentialEuler.__init__` after the `Integrator` base construction (the
numba code-generation backend is taken to be inactive): it raises
`IntegratorError` whenever the global `profile._merge_integral` flag is
unset, and otherwise stores the closure built by `get_np_step`. -/
def ExponentialEuler_init (mergeIntegral : Bool) (expf : ℚ → ℚ)
    (dt dtSqrt : ℚ) (eq : DiffEquation) : Except PyErr Step :=
  if !mergeIntegral then
    .error (.integratorError
      "\"exponential method only supports \"_merge_integral=True\". Please set \"profile._merge_integral = True.\"")
  else
    .ok (ExponentialEuler_np_step expf dt dtSqrt eq)

/-- Embedding of `MilsteinIto.get_np_step`: derivative-free Milstein with Itô correction
for stochastic equations with a callable `g`; any other equation falls
through to the closure built by `Euler.get_np_step`. -/
def MilsteinIto_np_step (dt dtSqrt : ℚ) (eq : DiffEquation) : Except PyErr Step :=
  match eq.g with
  | some (.fn g) =>
      match eq.f with
      | .multi f => .ok fun y0 t args noise =>
          let val := f y0 t args
          let df := val.1 * dt
          let gn := g y0 t args
          let dg := gn * noise * dtSqrt
          let ybar := y0 + df + gn * dtSqrt
          let gnbar := g ybar t args
          .ok (.tuple
            (y0 + df + dg + (1 / 2) * (gnbar - gn) * (noise * noise * dtSqrt - dtSqrt))
            val.2)
      | .single f => .ok fun y0 t args noise =>
          let df := f y0 t args * dt
          let gn := g y0 t args
          let dg := gn * noise * dtSqrt
          let ybar := y0 + df + gn * dtSqrt
          let gnbar := g ybar t args
          .ok (.scalar
            (y0 + df + dg + (1 / 2) * (gnbar - gn) * (noise * noise * dtSqrt - dtSqrt)))
  | _ => .ok (Euler_np_step dt dtSqrt eq)

/-- Embedding of `MilsteinStra.get_np_step`: same construction as `MilsteinIto` but the
correction term lacks the `- dt` shift (`dW * dW * __dt_sqrt` alone). -/
def MilsteinStra_np_step (dt dtSqrt : ℚ) (eq : DiffEquation) : Except PyErr Step :=
  match eq.g with
  | some (.fn g) =>
      match eq.f with
      | .multi f => .ok fun y0 t args noise =>
          let val := f y0 t args
          let df := val.1 * dt
          let gn := g y0 t args
          let dg := gn * noise * dtSqrt
          let ybar := y0 + df + gn * dtSqrt
          let gnbar := g ybar t args
          .ok (.tuple
            (y0 + df + dg + (1 / 2) * (gnbar - gn) * (noise * noise * dtSqrt))
            val.2)
      | .single f => .ok fun y0 t args noise =>
          let df := f y0 t args * dt
          let gn := g y0 t args
          let dg := gn * noise * dtSqrt
          let ybar := y0 + df + gn * dtSqrt
          let gnbar := g ybar t args
          .ok (.scalar
            (y0 + df + dg + (1 / 2) * (gnbar - gn) * (noise * noise * dtSqrt)))
  | _ => .ok (Euler_np_step dt dtSqrt eq)

/-- Numpy float division restricted to what the claims need: a zero divisor
yields a non-finite value (`inf` or `nan`, both modelled as `none`) instead
of raising; a nonzero divisor yields the exact quotient. -/
def npDiv (a b : ℚ) : Option ℚ := if b = 0 then none else some (a / b)

/-- The deterministic multi-return branch of `ExponentialEuler.get_np_step`
under numpy float semantics for the unguarded division
`(np.exp(linear_part * __dt) - 1) / linear_part`: the state component is
`none` exactly when the division is non-finite.  The step always returns
(no exception is raised for a zero coefficient). -/
def ExponentialEuler_ode_multi_float (expf : ℚ → ℚ) (dt : ℚ)
    (f : ℚ → ℚ → List ℚ → ℚ × List ℚ) (y0 t : ℚ) (args : List ℚ) :
    Except PyErr (Option ℚ × List ℚ) :=
  let val := f y0 t args
  match val.2 with
  | [] => .error (.indexError "tuple index out of range")
  | linear :: rest =>
      .ok ((npDiv (expf (linear * dt) - 1) linear).map (fun q => y0 + q * val.1), rest)

/-- The ten schemes the registry can return. -/
inductive Scheme where
  | euler
  | midpoint
  | heun
  | rk2
  | rk3
  | rk4
  | rk4alternative
  | exponential
  | milsteinIto
  | milsteinStra
deriving DecidableEq

/-- Python `str.lower()` as used on method names (ASCII case mapping, which
is what `Char.toLower` implements and all that the comparisons of the registry
against ASCII literals can observe). -/
def pyLower (s : String) : String :=
  ⟨s.data.map Char.toLower⟩

/-- Embedding of `get_integrator`: lowercases the method name and resolves it through the
if/elif chain of the source, raising `ValueError` with the message
`Unknown method: {method}.` (the `method` interpolated is the lowered one). -/
def get_integrator (method : String) : Except PyErr Scheme :=
  let m := pyLower method
  if m = "euler" then .ok .euler
  else if m = "midpoint" then .ok .midpoint
  else if m = "heun" then .ok .heun
  else if m = "rk2" then .ok .rk2
  else if m = "rk3" then .ok .rk3
  else if m = "rk4" then .ok .rk4
  else if m = "rk4_alternative" then .ok .rk4alternative
  else if m = "exponential" then .ok .exponential
  else if m = "milstein" then .ok .milsteinIto
  else if m = "milstein_ito" then .ok .milsteinIto
  else if m = "milstein_stra" then .ok .milsteinStra
  else .error (.valueError ("Unknown method: " ++ m ++ "."))

/-- The strings accepted by `get_integrator` after lowering. -/
def acceptedNames : List String :=
  ["euler", "midpoint", "heun", "rk2", "rk3", "rk4", "rk4_alternative",
   "exponential", "milstein", "milstein_ito", "milstein_stra"]

/-- Modelled from the spec (for the refinement comparison of the Heun claim):
the claimed two-stage predictor-corrector, predicting
`jbar = y0 + f(y0,t)*dt + g(y0,t)*sqrt(dt)*xi` and then averaging both the
drift and the diffusion over `y0` and `jbar`. -/
def heunSpecStep (dt dtSqrt : ℚ) (f g : ℚ → ℚ → List ℚ → ℚ)
    (y0 t : ℚ) (args : List ℚ) (noise : ℚ) : ℚ :=
  let jbar := y0 + f y0 t args * dt + g y0 t args * dtSqrt * noise
  y0 + dt * (f y0 t args + f jbar t args) / 2
     + dtSqrt * noise * (g y0 t args + g jbar t args) / 2

/-! Helper lemmas about the ASCII case mapping used by the registry. -/

/-- On an ASCII uppercase letter, `Char.toLower` adds 32 to the code point. -/
theorem toNat_toLower_of_upper (c : Char) (h : 65 ≤ c.toNat ∧ c.toNat ≤ 90) :
    (Char.toLower c).toNat = c.toNat + 32 := by
  have hv : (c.toNat + 32).isValidChar := Or.inl (by omega)
  simp only [Char.toLower]
  rw [if_pos ⟨h.1, h.2⟩, Char.ofNat, dif_pos hv]
  rfl

/-- Off the ASCII uppercase range, `Char.toLower` is the identity. -/
theorem toLower_of_not_upper (c : Char) (h : ¬(65 ≤ c.toNat ∧ c.toNat ≤ 90)) :
    Char.toLower c = c := by
  simp only [Char.toLower]
  exact if_neg fun hc => h ⟨hc.1, hc.2⟩

/-- ASCII lowering of a character is idempotent. -/
theorem toLower_toLower (c : Char) :
    Char.toLower (Char.toLower c) = Char.toLower c := by
  by_cases h : 65 ≤ c.toNat ∧ c.toNat ≤ 90
  · exact toLower_of_not_upper _ (by rw [toNat_toLower_of_upper c h]; omega)
  · rw [toLower_of_not_upper c h, toLower_of_not_upper c h]

/-- The modelled `str.lower()` is idempotent. -/
theorem pyLower_pyLower (s : String) : pyLower (pyLower s) = pyLower s := by
  simp only [pyLower, List.map_map]
  exact congrArg String.mk (List.map_congr_left fun c _ => toLower_toLower c)

/-- C3: for every equation (stochastic or not), constructing an
`ExponentialEuler` integrator with the fused/merged-integral flag inactive
raises an `IntegratorError` at construction time, and with the flag active
the construction succeeds and stores the numeric step closure built by
`get_np_step`. -/
theorem exponential_euler_requires_merge_integral
    (expf : ℚ → ℚ) (dt dtSqrt : ℚ) (eq : DiffEquation) :
    ExponentialEuler_init false expf dt dtSqrt eq
      = .error (.integratorError
        "\"exponential method only supports \"_merge_integral=True\". Please set \"profile._merge_integral = True.\"")
    ∧ ExponentialEuler_init true expf dt dtSqrt eq
      = .ok (ExponentialEuler_np_step expf dt dtSqrt eq) :=
  ⟨rfl, rfl⟩

/-- C4: for every equation with `is_stochastic = True`, each of the
deterministic-only builders RK2, RK3, RK4 and RK4Alternative raises at
closure-construction time (`NotImplementedError` for the first three,
`IntegratorError` for RK4Alternative) instead of returning a step closure. -/
theorem rk_schemes_reject_stochastic (dt beta : ℚ) (eq : DiffEquation)
    (h : eq.is_stochastic = true) :
    RK2_np_step dt beta eq = .error .notImplemented
    ∧ RK3_np_step dt eq = .error .notImplemented
    ∧ RK4_np_step dt eq = .error .notImplemented
    ∧ RK4Alternative_np_step dt eq
        = .error (.integratorError
          "\"RK4_alternative\" method does not support stochastic differential equation.") := by
  refine ⟨?_, ?_, ?_, ?_⟩ <;>
    simp [RK2_np_step, RK3_np_step, RK4_np_step, RK4Alternative_np_step, h]

/-- Witness for C4 at a concrete stochastic equation. -/
theorem rk_schemes_reject_stochastic_witness :
    DiffEquation.is_stochastic ⟨.single fun y _ _ => y, some (.const 1)⟩ = true
    ∧ RK2_np_step 1 (2/3) ⟨.single fun y _ _ => y, some (.const 1)⟩
        = .error .notImplemented
    ∧ RK3_np_step 1 ⟨.single fun y _ _ => y, some (.const 1)⟩
        = .error .notImplemented
    ∧ RK4_np_step 1 ⟨.single fun y _ _ => y, some (.const 1)⟩
        = .error .notImplemented
    ∧ RK4Alternative_np_step 1 ⟨.single fun y _ _ => y, some (.const 1)⟩
        = .error (.integratorError
          "\"RK4_alternative\" method does not support stochastic differential equation.") :=
  ⟨rfl, rk_schemes_reject_stochastic 1 (2/3) ⟨.single fun y _ _ => y, some (.const 1)⟩ rfl⟩

/-- C7: for a deterministic equation, the step closure built by `MidPoint`
is the step closure built by `RK2` with `beta = 0.5`: on every identical
input `(y0, t, args)` (and noise value) the outputs agree. -/
theorem midpoint_eq_rk2_half (dt : ℚ) (eq : DiffEquation)
    (h : eq.is_stochastic = false) (y0 t noise : ℚ) (args : List ℚ) :
    applyStep (MidPoint_np_step dt eq) y0 t args noise
      = applyStep (RK2_np_step dt (1/2) eq) y0 t args noise :=
  rfl

/-- Witness for C7 at a concrete deterministic equation. -/
theorem midpoint_eq_rk2_half_witness :
    DiffEquation.is_stochastic ⟨.single fun y _ _ => y, none⟩ = false
    ∧ applyStep (MidPoint_np_step 1 ⟨.single fun y _ _ => y, none⟩) 1 0 [] 0
      = applyStep (RK2_np_step 1 (1/2) ⟨.single fun y _ _ => y, none⟩) 1 0 [] 0 :=
  ⟨rfl, midpoint_eq_rk2_half 1 ⟨.single fun y _ _ => y, none⟩ rfl 1 0 0 []⟩

/-- C8: for every stochastic equation whose diffusion coefficient is a
constant (not callable), `Heun.get_np_step` returns the very closure built
by `Euler.get_np_step`, so given the same drawn noise value the outputs are
identical for every `(y0, t, args)`. -/
theorem heun_const_noise_eq_euler (dt dtSqrt c : ℚ) (df : DriftFn)
    (y0 t noise : ℚ) (args : List ℚ) :
    Heun_np_step dt dtSqrt ⟨df, some (.const c)⟩
      = .ok (Euler_np_step dt dtSqrt ⟨df, some (.const c)⟩)
    ∧ applyStep (Heun_np_step dt dtSqrt ⟨df, some (.const c)⟩) y0 t args noise
      = Euler_np_step dt dtSqrt ⟨df, some (.const c)⟩ y0 t args noise :=
  ⟨rfl, rfl⟩

/-- C9: for every deterministic non-multi-return equation the Euler step is
exactly `y0 + dt * f(y0, t, args)`; in particular on `dy/dt = -y` with
`y0 = 1`, `t = 0`, `dt = 1/10` it returns exactly `9/10`. -/
theorem euler_ode_step_value :
    (∀ (dt dtSqrt : ℚ) (f : ℚ → ℚ → List ℚ → ℚ) (y0 t noise : ℚ) (args : List ℚ),
      Euler_np_step dt dtSqrt ⟨.single f, none⟩ y0 t args noise
        = .ok (.scalar (y0 + dt * f y0 t args)))
    ∧ Euler_np_step (1/10) 0 ⟨.single fun y _ _ => -y, none⟩ 1 0 [] 0
        = .ok (.scalar (9/10)) := by
  refine ⟨fun dt dtSqrt f y0 t noise args => rfl, ?_⟩
  simp only [Euler_np_step]
  norm_num

/-- C1 counterexample: on the stochastic equation `f(y,t) = y`, `g(y,t) = y`
with `y0 = 1`, `t = 0`, `dt = 1`, `sqrt(dt) = 1` and drawn noise `1`, the
Heun step of the code returns `7/2` while the claimed two-stage
predictor-corrector formula (drift and diffusion both averaged, drift
included in the predictor) gives `5`; the claim is false at this input. -/
theorem heun_functional_noise_spec_counterexample :
    applyStep (Heun_np_step 1 1 ⟨.single fun y _ _ => y, some (.fn fun y _ _ => y)⟩)
        1 0 [] 1
      = .ok (.scalar (7/2))
    ∧ heunSpecStep 1 1 (fun y _ _ => y) (fun y _ _ => y) 1 0 [] 1 = 5
    ∧ (7/2 : ℚ) ≠ 5 := by
  refine ⟨?_, ?_, by norm_num⟩
  · simp only [Heun_np_step, applyStep]
    norm_num
  · simp only [heunSpecStep]
    norm_num

/-- C1 (amended): for every stochastic equation with functional noise, the
Heun step uses the noise-only predictor `ybar = y0 + g(y0,t)*noise*sqrt(dt)`
(no drift term), evaluates the drift only at `y0`, and averages only the
diffusion over `y0` and `ybar`:
`y1 = y0 + dt*f(y0,t) + sqrt(dt)*noise*(g(y0,t) + g(ybar,t))/2`;
auxiliary outputs of a multi-return drift are passed through. -/
theorem heun_functional_noise_step_eq
    (dt dtSqrt : ℚ) (g : ℚ → ℚ → List ℚ → ℚ) (y0 t noise : ℚ) (args : List ℚ) :
    (∀ f : ℚ → ℚ → List ℚ → ℚ,
      applyStep (Heun_np_step dt dtSqrt ⟨.single f, some (.fn g)⟩) y0 t args noise
        = .ok (.scalar (y0 + dt * f y0 t args
            + dtSqrt * noise
              * (g y0 t args + g (y0 + g y0 t args * noise * dtSqrt) t args) / 2)))
    ∧ (∀ fm : ℚ → ℚ → List ℚ → ℚ × List ℚ,
      applyStep (Heun_np_step dt dtSqrt ⟨.multi fm, some (.fn g)⟩) y0 t args noise
        = .ok (.tuple (y0 + dt * (fm y0 t args).1
            + dtSqrt * noise
              * (g y0 t args + g (y0 + g y0 t args * noise * dtSqrt) t args) / 2)
            (fm y0 t args).2)) := by
  constructor
  · intro f
    simp only [Heun_np_step, applyStep, Except.ok.injEq, PyRes.scalar.injEq]
    ring
  · intro fm
    simp only [Heun_np_step, applyStep, Except.ok.injEq, PyRes.tuple.injEq]
    exact ⟨by ring, trivial⟩

/-- C2: with `dtSqrt * dtSqrt = dt`, for every stochastic equation with
callable diffusion (in either drift convention, non-multi-return or
multi-return) both Milstein builders use the noise-free predictor
`ybar = y0 + f(y0,t)*dt + g(y0,t)*sqrt(dt)`, and writing `dW = sqrt(dt)*noise`
the Itô step adds `1/2*(g(ybar)-g(y0))*(dW^2 - dt)/sqrt(dt)` to the
Euler-Maruyama update while the Stratonovich step adds
`1/2*(g(ybar)-g(y0))*dW^2/sqrt(dt)` (no `- dt` shift); a multi-return drift
has its auxiliary outputs passed through. -/
theorem milstein_predictor_and_corrections
    (dt dtSqrt : ℚ) (h : dtSqrt * dtSqrt = dt)
    (g : ℚ → ℚ → List ℚ → ℚ) (y0 t noise : ℚ) (args : List ℚ) :
    (∀ f : ℚ → ℚ → List ℚ → ℚ,
      applyStep (MilsteinIto_np_step dt dtSqrt ⟨.single f, some (.fn g)⟩) y0 t args noise
        = .ok (.scalar (y0 + f y0 t args * dt + g y0 t args * (dtSqrt * noise)
            + 1 / 2 * (g (y0 + f y0 t args * dt + g y0 t args * dtSqrt) t args - g y0 t args)
              * ((dtSqrt * noise) * (dtSqrt * noise) - dt) / dtSqrt)))
    ∧ (∀ f : ℚ → ℚ → List ℚ → ℚ,
      applyStep (MilsteinStra_np_step dt dtSqrt ⟨.single f, some (.fn g)⟩) y0 t args noise
        = .ok (.scalar (y0 + f y0 t args * dt + g y0 t args * (dtSqrt * noise)
            + 1 / 2 * (g (y0 + f y0 t args * dt + g y0 t args * dtSqrt) t args - g y0 t args)
              * ((dtSqrt * noise) * (dtSqrt * noise)) / dtSqrt)))
    ∧ (∀ fm : ℚ → ℚ → List ℚ → ℚ × List ℚ,
      applyStep (MilsteinIto_np_step dt dtSqrt ⟨.multi fm, some (.fn g)⟩) y0 t args noise
        = .ok (.tuple (y0 + (fm y0 t args).1 * dt + g y0 t args * (dtSqrt * noise)
            + 1 / 2 * (g (y0 + (fm y0 t args).1 * dt + g y0 t args * dtSqrt) t args - g y0 t args)
              * ((dtSqrt * noise) * (dtSqrt * noise) - dt) / dtSqrt)
            (fm y0 t args).2))
    ∧ (∀ fm : ℚ → ℚ → List ℚ → ℚ × List ℚ,
      applyStep (MilsteinStra_np_step dt dtSqrt ⟨.multi fm, some (.fn g)⟩) y0 t args noise
        = .ok (.tuple (y0 + (fm y0 t args).1 * dt + g y0 t args * (dtSqrt * noise)
            + 1 / 2 * (g (y0 + (fm y0 t args).1 * dt + g y0 t args * dtSqrt) t args - g y0 t args)
              * ((dtSqrt * noise) * (dtSqrt * noise)) / dtSqrt)
            (fm y0 t args).2)) := by
  refine ⟨fun f => ?_, fun f => ?_, fun fm => ?_, fun fm => ?_⟩
  · simp only [MilsteinIto_np_step, applyStep, Except.ok.injEq, PyRes.scalar.injEq]
    rcases eq_or_ne dtSqrt 0 with h0 | h0
    · subst h0
      rw [← h]
      ring_nf
    · field_simp
      rw [← h]
      ring
  · simp only [MilsteinStra_np_step, applyStep, Except.ok.injEq, PyRes.scalar.injEq]
    rcases eq_or_ne dtSqrt 0 with h0 | h0
    · subst h0
      rw [← h]
      ring_nf
    · field_simp
      rw [← h]
      ring
  · simp only [MilsteinIto_np_step, applyStep, Except.ok.injEq, PyRes.tuple.injEq]
    refine ⟨?_, trivial⟩
    rcases eq_or_ne dtSqrt 0 with h0 | h0
    · subst h0
      rw [← h]
      ring_nf
    · field_simp
      rw [← h]
      ring
  · simp only [MilsteinStra_np_step, applyStep, Except.ok.injEq, PyRes.tuple.injEq]
    refine ⟨?_, trivial⟩
    rcases eq_or_ne dtSqrt 0 with h0 | h0
    · subst h0
      rw [← h]
      ring_nf
    · field_simp
      rw [← h]
      ring

/-- Witness for C2 at `dt = 1`, `dtSqrt = 1`, `g = id`, noise `2`, with the
non-multi-return drift `f = 0` and the multi-return drift `fm(y) = (0, [7])`. -/
theorem milstein_predictor_and_corrections_witness :
    (1 * 1 = (1:ℚ))
    ∧ applyStep (MilsteinIto_np_step 1 1 ⟨.single fun _ _ _ => 0, some (.fn fun y _ _ => y)⟩)
        1 0 [] 2 = .ok (.scalar (9/2))
    ∧ applyStep (MilsteinStra_np_step 1 1 ⟨.single fun _ _ _ => 0, some (.fn fun y _ _ => y)⟩)
        1 0 [] 2 = .ok (.scalar 5)
    ∧ applyStep (MilsteinIto_np_step 1 1
          ⟨.multi fun _ _ _ => (0, [7]), some (.fn fun y _ _ => y)⟩)
        1 0 [] 2 = .ok (.tuple (9/2) [7])
    ∧ applyStep (MilsteinStra_np_step 1 1
          ⟨.multi fun _ _ _ => (0, [7]), some (.fn fun y _ _ => y)⟩)
        1 0 [] 2 = .ok (.tuple 5 [7]) := by
  have h := milstein_predictor_and_corrections 1 1 (by norm_num)
    (fun y _ _ => y) 1 0 2 []
  refine ⟨by norm_num, (h.1 fun _ _ _ => 0).trans ?_, (h.2.1 fun _ _ _ => 0).trans ?_,
    (h.2.2.1 fun _ _ _ => (0, [7])).trans ?_, (h.2.2.2 fun _ _ _ => (0, [7])).trans ?_⟩ <;>
      norm_num

/-- C5 counterexample: for the unknown mixed-case name `"FOO"` the registry
raises a `ValueError`, but its message contains the lowercased `"foo"` and
not the offending string `"FOO"` itself, so "a value error whose message
names the offending string" fails as stated. -/
theorem get_integrator_message_counterexample :
    get_integrator "FOO" = .error (.valueError "Unknown method: foo.")
    ∧ ¬ List.IsInfix "FOO".data "Unknown method: foo.".data := by
  refine ⟨by rfl, by decide⟩

/-- C5 (amended): `get_integrator` resolves names case-insensitively
(`get_integrator name = get_integrator (name.lower())` for every string),
`"milstein"` and `"milstein_ito"` both resolve to `MilsteinIto`, and every
string whose lowering is outside the accepted method names raises a
`ValueError` whose message names the lowercased offending string. -/
theorem get_integrator_resolution :
    (∀ s : String, get_integrator s = get_integrator (pyLower s))
    ∧ get_integrator "milstein" = .ok .milsteinIto
    ∧ get_integrator "milstein_ito" = .ok .milsteinIto
    ∧ ∀ s : String, pyLower s ∉ acceptedNames →
        get_integrator s
          = .error (.valueError ("Unknown method: " ++ pyLower s ++ ".")) := by
  refine ⟨fun s => ?_, by rfl, by rfl, fun s h => ?_⟩
  · simp only [get_integrator, pyLower_pyLower]
  · simp only [acceptedNames, List.mem_cons, List.not_mem_nil, or_false] at h
    push_neg at h
    obtain ⟨h1, h2, h3, h4, h5, h6, h7, h8, h9, h10, h11⟩ := h
    simp only [get_integrator, h1, h2, h3, h4, h5, h6, h7, h8, h9, h10, h11,
      if_false]

/-- Witness for C5 at the unknown lowercase name `"nope"`. -/
theorem get_integrator_resolution_witness :
    pyLower "nope" ∉ acceptedNames
    ∧ get_integrator "nope"
        = .error (.valueError ("Unknown method: " ++ pyLower "nope" ++ ".")) :=
  ⟨by decide, get_integrator_resolution.2.2.2 "nope" (by decide)⟩

/-- C6 (code divergence): on a stochastic multi-return equation with a
constant diffusion coefficient, the `ExponentialEuler` step returns the
full auxiliary tuple `val[1:]` with the linear coefficient (here `3`) still
included, whereas on the otherwise identical deterministic equation it
returns `val[2:]` with the linear coefficient consumed and excluded. -/
theorem exponential_euler_const_noise_keeps_linear :
    ExponentialEuler_np_step (fun x => 1 + x) 1 1
        ⟨.multi fun y _ _ => (y, [3, 7]), some (.const 2)⟩ 1 0 [] 1
      = .ok (.tuple 10 [3, 7])
    ∧ ExponentialEuler_np_step (fun x => 1 + x) 1 1
        ⟨.multi fun y _ _ => (y, [3, 7]), none⟩ 1 0 [] 1
      = .ok (.tuple 2 [7]) := by
  constructor <;>
  · simp only [ExponentialEuler_np_step]
    norm_num

/-- C10: for every deterministic multi-return equation whose drift reports a
zero linear coefficient at some input, the `ExponentialEuler` step performs
the unguarded division `(exp(linear*dt) - 1)/linear` there and returns a
non-finite state (modelled `none`) together with the remaining auxiliary
outputs — it returns normally instead of raising. -/
theorem exponential_euler_zero_linear_nonfinite
    (expf : ℚ → ℚ) (dt : ℚ) (f : ℚ → ℚ → List ℚ → ℚ × List ℚ)
    (y0 t : ℚ) (args : List ℚ) (rest : List ℚ)
    (h : (f y0 t args).2 = 0 :: rest) :
    ExponentialEuler_ode_multi_float expf dt f y0 t args = .ok (none, rest) := by
  simp [ExponentialEuler_ode_multi_float, h, npDiv]

/-- Witness for C10 on the drift `f(y) = (y, [0])` at `y0 = 2`. -/
theorem exponential_euler_zero_linear_nonfinite_witness :
    ((fun y _ _ => ((y:ℚ), [(0:ℚ)])) 2 0 ([] : List ℚ)).2 = 0 :: ([] : List ℚ)
    ∧ ExponentialEuler_ode_multi_float (fun _ => 1) 1 (fun y _ _ => (y, [0])) 2 0 []
        = .ok (none, []) :=
  ⟨rfl, exponential_euler_zero_linear_nonfinite (fun _ => 1) 1
    (fun y _ _ => (y, [0])) 2 0 [] [] rfl⟩

end NpBrain
